import Mathlib

/-!
Verification of the sgraph release-automation specification.

The repository ships the tests of `scripts/release.py`
(`tests/test_release_automation.py`) and the converter script
`src/sgraph/converters/xml_to_deps.py`.  The release-automation module
itself (`ReleaseAutomation._poll_for_pr_merge`, `push_and_create_pr`,
`ReleaseError`) is not part of the checked-in sources, so those
operations are modelled here from the specification; the converter
script is embedded from its source.
-/

namespace SgraphSpec

/-- The result of invoking the external process: `{ exitCode, stdout, stderr }`.
This is the sole channel of information from the hosted CLI. -/
structure CommandOutcome where
  exitCode : Int
  stdout : String
  stderr : String
deriving DecidableEq, Repr

/-- The key used for a single `gh pr view` status query: either the branch
name or the numeric PR identifier. -/
inductive QueryKey where
  | byBranch (branch : String)
  | byNumber (number : Nat)
deriving DecidableEq, Repr

/-- Outcome of a polling session: success (merged), a `ReleaseError` carrying
a message, or exhaustion of the modelled environment (the supplied list of
query responses ran out before the session decided; a model artifact). -/
inductive PollOutcome where
  | merged
  | releaseError (msg : String)
  | exhausted
deriving DecidableEq, Repr

/-- Boolean test that `pat` occurs at the head of `hay` (character lists). -/
def isPrefixOfB : List Char → List Char → Bool
  | [], _ => true
  | _ :: _, [] => false
  | a :: asTl, b :: bs => a == b && isPrefixOfB asTl bs

/-- Boolean test that `pat` occurs somewhere inside `hay` (character lists). -/
def containsSubList (pat : List Char) : List Char → Bool
  | [] => pat.isEmpty
  | c :: rest => isPrefixOfB pat (c :: rest) || containsSubList pat rest

/-- Substring containment on strings: `containsSub hay pat` holds iff `pat`
occurs contiguously inside `hay`. -/
def containsSub (hay pat : String) : Bool :=
  containsSubList pat.toList hay.toList

/-- Lower-casing of a string, used to state the case-insensitive
message-containment properties. -/
def lowerStr (s : String) : String :=
  String.mk (s.toList.map Char.toLower)

/-- Modelled from the spec: the hosted CLI's view command answers with the
compact JSON object returned in `stdout`.  `parseStateField` extracts the
value of the `state` field from `{"state": "<value>"}`-shaped output and
reports `none` when the output does not have that shape. -/
def parseStateField (stdout : String) : Option String :=
  let cs := stdout.toList
  let pre := "\x7b\"state\": \"".toList
  let suf := "\"\x7d".toList
  if isPrefixOfB pre cs && isPrefixOfB suf.reverse cs.reverse
      && pre.length + suf.length ≤ cs.length then
    some (String.mk ((cs.drop pre.length).take (cs.length - pre.length - suf.length)))
  else
    none

/-- Modelled from the spec: the stderr pattern, containing the branch name
in quotes, that signals the post-merge branch-deletion race and triggers
the numeric fallback query. -/
def branchDeletedPat (branch : String) : String :=
  "no pull requests found for branch \"" ++ branch ++ "\""

/-- Verdict of one status query once its `CommandOutcome` is inspected. -/
inductive StepVerdict where
  | finishedMerged
  | finishedClosed
  | keepPolling
deriving DecidableEq, Repr

/-- Modelled from the spec: message of the `ReleaseError` raised when the
pull request is closed without being merged. -/
def closedMsg : String := "Pull request was closed without merging"

/-- Modelled from the spec: message of the `ReleaseError` raised when no
terminal state is observed before the deadline. -/
def timeoutMsg : String := "Timeout waiting for pull request to be merged"

/-- Modelled from the spec: classification of a single query result.
A successful query (`exitCode = 0`) has its `state` field parsed:
`MERGED` and `CLOSED` are terminal; any other parsed value, unparseable
output, and failed queries are non-terminal (keep polling). -/
def classify (o : CommandOutcome) : StepVerdict :=
  if o.exitCode = 0 then
    match parseStateField o.stdout with
    | some st =>
      if st = "MERGED" then StepVerdict.finishedMerged
      else if st = "CLOSED" then StepVerdict.finishedClosed
      else StepVerdict.keepPolling
    | none => StepVerdict.keepPolling
  else StepVerdict.keepPolling

/-- Modelled from the spec: the polling loop of
`ReleaseAutomation._poll_for_pr_merge` (absent from the checked-in
sources).  Time is explicit: `now` advances by `interval` at every sleep,
and the loop condition `now < deadline` is checked at the top of each
iteration.  The external world is the list `responses`: each issued query
consumes the next element.  Every iteration first issues the branch-keyed
query; if it fails with the branch-deletion pattern and a PR number is
known, the numeric fallback query is issued in the same iteration.  The
returned trace lists the keys of the queries issued, in order. -/
def pollLoop (branch : String) (prNumber : Option Nat) (deadline interval : ℚ) :
    ℚ → List CommandOutcome → PollOutcome × List QueryKey
  | now, [] =>
    if now < deadline then (PollOutcome.exhausted, [])
    else (PollOutcome.releaseError timeoutMsg, [])
  | now, r1 :: rest =>
    if now < deadline then
      match prNumber with
        | some n =>
          if r1.exitCode ≠ 0 ∧ containsSub r1.stderr (branchDeletedPat branch) = true then
            match rest with
            | [] => (PollOutcome.exhausted, [QueryKey.byBranch branch])
            | r2 :: rest2 =>
              match classify r2 with
              | StepVerdict.finishedMerged =>
                  (PollOutcome.merged, [QueryKey.byBranch branch, QueryKey.byNumber n])
              | StepVerdict.finishedClosed =>
                  (PollOutcome.releaseError closedMsg,
                   [QueryKey.byBranch branch, QueryKey.byNumber n])
              | StepVerdict.keepPolling =>
                  ((pollLoop branch prNumber deadline interval (now + interval) rest2).1,
                   QueryKey.byBranch branch :: QueryKey.byNumber n ::
                     (pollLoop branch prNumber deadline interval (now + interval) rest2).2)
          else
            match classify r1 with
            | StepVerdict.finishedMerged =>
                (PollOutcome.merged, [QueryKey.byBranch branch])
            | StepVerdict.finishedClosed =>
                (PollOutcome.releaseError closedMsg, [QueryKey.byBranch branch])
            | StepVerdict.keepPolling =>
                ((pollLoop branch prNumber deadline interval (now + interval) rest).1,
                 QueryKey.byBranch branch ::
                   (pollLoop branch prNumber deadline interval (now + interval) rest).2)
        | none =>
          match classify r1 with
          | StepVerdict.finishedMerged =>
              (PollOutcome.merged, [QueryKey.byBranch branch])
          | StepVerdict.finishedClosed =>
              (PollOutcome.releaseError closedMsg, [QueryKey.byBranch branch])
          | StepVerdict.keepPolling =>
              ((pollLoop branch prNumber deadline interval (now + interval) rest).1,
               QueryKey.byBranch branch ::
                 (pollLoop branch prNumber deadline interval (now + interval) rest).2)
    else (PollOutcome.releaseError timeoutMsg, [])

/-- Modelled from the spec: `waitForMerge` / `_poll_for_pr_merge`.  The
deadline is the start time (taken as 0) plus `timeoutMinutes` converted
to seconds. -/
def poll_for_pr_merge (branch : String) (timeoutMinutes pollIntervalSeconds : ℚ)
    (prNumber : Option Nat) (responses : List CommandOutcome) :
    PollOutcome × List QueryKey :=
  pollLoop branch prNumber (timeoutMinutes * 60) pollIntervalSeconds 0 responses

/-- The external commands issued by the publisher, in order: the hosted-CLI
availability probe, the branch push, and the PR creation. -/
inductive CmdKind where
  | ghProbe
  | gitPush
  | ghCreate
deriving DecidableEq, Repr

/-- One decimal digit, or `none` for a non-digit character. -/
def digitVal (c : Char) : Option Nat :=
  if '0' ≤ c ∧ c ≤ '9' then some (c.toNat - '0'.toNat) else none

/-- Accumulating decimal parse of a list of characters; fails on the first
non-digit. -/
def parseDecAux : Nat → List Char → Option Nat
  | acc, [] => some acc
  | acc, c :: rest =>
    match digitVal c with
    | some d => parseDecAux (acc * 10 + d) rest
    | none => none

/-- Decimal parse of a nonempty all-digit character list. -/
def parseDec (cs : List Char) : Option Nat :=
  if cs.isEmpty then none else parseDecAux 0 cs

/-- The characters after the last `/` (the whole list when no `/` occurs),
with `cur` the segment accumulated so far. -/
def lastSegAux (cur : List Char) : List Char → List Char
  | [] => cur
  | c :: rest => if c = '/' then lastSegAux [] rest else lastSegAux (cur ++ [c]) rest

/-- Modelled from the spec: extraction of the PR number from the URL the
PR-creation command prints, as the decimal value of the final path segment
after the last `/`; `none` when that segment is not a decimal number. -/
def parsePrNumber (url : String) : Option Nat :=
  parseDec (lastSegAux [] url.toList)

/-- Modelled from the spec: `createPullRequest` / `push_and_create_pr`
(absent from the checked-in sources).  The environment supplies the
outcomes of the three external commands.  An unavailable hosted CLI
(probe exits non-zero) soft-skips with no PR and issues neither the push
nor the creation; a failed push is the hard failure "failed to push
branch"; an unparseable creation URL degrades to "no PR number" rather
than failing.  The second component lists the commands actually issued. -/
def push_and_create_pr (probeRes pushRes createRes : CommandOutcome) :
    Except String (Option Nat) × List CmdKind :=
  if probeRes.exitCode ≠ 0 then
    (Except.ok none, [CmdKind.ghProbe])
  else if pushRes.exitCode ≠ 0 then
    (Except.error "Failed to push branch", [CmdKind.ghProbe, CmdKind.gitPush])
  else if createRes.exitCode ≠ 0 then
    (Except.ok none, [CmdKind.ghProbe, CmdKind.gitPush, CmdKind.ghCreate])
  else
    (Except.ok (parsePrNumber createRes.stdout),
     [CmdKind.ghProbe, CmdKind.gitPush, CmdKind.ghCreate])

/-- Observable actions of the `xml_to_deps` converter script, in execution
order: parsing the input model, printing the node count, and the final
`egm.to_deps(outfilepath)` call, recorded with the exact argument the
script passes.  Per the script's own comment, a `none` argument makes
`to_deps` emit the model to stdout. -/
inductive ScriptStep where
  | parseInput (path : String)
  | printNodeCount
  | toDeps (out : Option String)
deriving DecidableEq, Repr

/-- Message of the Python `IndexError` raised by an out-of-range
`sys.argv` subscript. -/
def indexErrorMsg : String := "IndexError: list index out of range"

/-- Embedding of `src/sgraph/converters/xml_to_deps.py` (module-level
script).  `argv` is the full `sys.argv` including the script name.
`sys.argv[1]` is read unconditionally first; `sys.argv[2]` is consulted
only when `len(sys.argv) > 2`.  The node-count print is guarded by Python
truthiness (`if outfilepath:`), which holds only for a present, nonempty
string; `to_deps` is then called with `outfilepath` as-is.  Returns the
steps executed in order and `some` error message when the script dies
with an exception. -/
def xml_to_deps_run (argv : List String) : List ScriptStep × Option String :=
  match argv.get? 1 with
  | none => ([], some indexErrorMsg)
  | some inputfilepath =>
    let outfilepath : Option String := if 2 < argv.length then argv.get? 2 else none
    match outfilepath with
    | some p =>
        if p = "" then
          ([ScriptStep.parseInput inputfilepath, ScriptStep.toDeps (some p)], none)
        else
          ([ScriptStep.parseInput inputfilepath, ScriptStep.printNodeCount,
            ScriptStep.toDeps (some p)], none)
    | none =>
        ([ScriptStep.parseInput inputfilepath, ScriptStep.toDeps none], none)

/-- Trace well-formedness for C8: every number-keyed query in a trace is
immediately preceded by a branch-keyed query for `branch` in the same
iteration, and no trace starts with a number-keyed query. -/
def numberAfterBranchOnly (branch : String) : List QueryKey → Bool
  | [] => true
  | QueryKey.byBranch b :: QueryKey.byNumber _ :: rest =>
      (b == branch) && numberAfterBranchOnly branch rest
  | QueryKey.byBranch b :: rest => (b == branch) && numberAfterBranchOnly branch rest
  | QueryKey.byNumber _ :: _ => false

/-- Every query in the trace is keyed by `branch`. -/
def allBranchKeyed (branch : String) : List QueryKey → Bool
  | [] => true
  | QueryKey.byBranch b :: rest => (b == branch) && allBranchKeyed branch rest
  | QueryKey.byNumber _ :: _ => false

/-- No response in the list is a failure whose stderr matches the
branch-deletion pattern (so the numeric fallback is never triggered). -/
def noDeletionFailure (branch : String) : List CommandOutcome → Bool
  | [] => true
  | o :: rest =>
      (decide (o.exitCode = 0) || !(containsSub o.stderr (branchDeletedPat branch)))
      && noDeletionFailure branch rest

theorem classify_keepPolling_of_state {o : CommandOutcome} {st : String}
    (h0 : o.exitCode = 0) (hp : parseStateField o.stdout = some st)
    (hm : st ≠ "MERGED") (hc : st ≠ "CLOSED") :
    classify o = StepVerdict.keepPolling := by
  simp [classify, h0, hp, hm, hc]

theorem classify_merged_of_state {o : CommandOutcome}
    (h0 : o.exitCode = 0) (hp : parseStateField o.stdout = some "MERGED") :
    classify o = StepVerdict.finishedMerged := by
  simp [classify, h0, hp]

theorem classify_closed_of_state {o : CommandOutcome}
    (h0 : o.exitCode = 0) (hp : parseStateField o.stdout = some "CLOSED") :
    classify o = StepVerdict.finishedClosed := by
  simp [classify, h0, hp]

theorem classify_keepPolling_of_failure {o : CommandOutcome}
    (h0 : o.exitCode ≠ 0) : classify o = StepVerdict.keepPolling := by
  simp [classify, h0]

theorem pollLoop_of_deadline_le (branch : String) (prNumber : Option Nat)
    (deadline interval now : ℚ) (resp : List CommandOutcome)
    (h : deadline ≤ now) :
    pollLoop branch prNumber deadline interval now resp =
      (PollOutcome.releaseError timeoutMsg, []) := by
  cases resp with
  | nil =>
    conv_lhs => rw [pollLoop.eq_def]
    simp only [not_lt.mpr h, if_false]
  | cons r rest =>
    conv_lhs => rw [pollLoop.eq_def]
    simp only [not_lt.mpr h, if_false]

theorem pollLoop_step_keepPolling (branch : String) (prNumber : Option Nat)
    (deadline interval now : ℚ) (o : CommandOutcome) (rest : List CommandOutcome)
    (hnow : now < deadline)
    (hnf : o.exitCode = 0 ∨ containsSub o.stderr (branchDeletedPat branch) = false)
    (hk : classify o = StepVerdict.keepPolling) :
    pollLoop branch prNumber deadline interval now (o :: rest) =
      ((pollLoop branch prNumber deadline interval (now + interval) rest).1,
       QueryKey.byBranch branch ::
         (pollLoop branch prNumber deadline interval (now + interval) rest).2) := by
  conv_lhs => rw [pollLoop.eq_def]
  cases prNumber with
  | none => simp [hnow, hk]
  | some n =>
    rcases hnf with h | h
    · simp [hnow, hk, h]
    · by_cases h0 : o.exitCode = 0
      · simp [hnow, hk, h0]
      · simp [hnow, hk, h0, h]

theorem pollLoop_step_merged (branch : String) (prNumber : Option Nat)
    (deadline interval now : ℚ) (o : CommandOutcome) (rest : List CommandOutcome)
    (hnow : now < deadline)
    (hnf : o.exitCode = 0 ∨ containsSub o.stderr (branchDeletedPat branch) = false)
    (hk : classify o = StepVerdict.finishedMerged) :
    pollLoop branch prNumber deadline interval now (o :: rest) =
      (PollOutcome.merged, [QueryKey.byBranch branch]) := by
  conv_lhs => rw [pollLoop.eq_def]
  cases prNumber with
  | none => simp [hnow, hk]
  | some n =>
    rcases hnf with h | h
    · simp [hnow, hk, h]
    · by_cases h0 : o.exitCode = 0
      · simp [hnow, hk, h0]
      · simp [hnow, hk, h0, h]

theorem pollLoop_step_closed (branch : String) (prNumber : Option Nat)
    (deadline interval now : ℚ) (o : CommandOutcome) (rest : List CommandOutcome)
    (hnow : now < deadline)
    (hnf : o.exitCode = 0 ∨ containsSub o.stderr (branchDeletedPat branch) = false)
    (hk : classify o = StepVerdict.finishedClosed) :
    pollLoop branch prNumber deadline interval now (o :: rest) =
      (PollOutcome.releaseError closedMsg, [QueryKey.byBranch branch]) := by
  conv_lhs => rw [pollLoop.eq_def]
  cases prNumber with
  | none => simp [hnow, hk]
  | some n =>
    rcases hnf with h | h
    · simp [hnow, hk, h]
    · by_cases h0 : o.exitCode = 0
      · simp [hnow, hk, h0]
      · simp [hnow, hk, h0, h]

theorem pollLoop_fallback_merged (branch : String) (n : Nat)
    (deadline interval now : ℚ) (r1 r2 : CommandOutcome) (rest : List CommandOutcome)
    (hnow : now < deadline) (h1 : r1.exitCode ≠ 0)
    (hpat : containsSub r1.stderr (branchDeletedPat branch) = true)
    (hk : classify r2 = StepVerdict.finishedMerged) :
    pollLoop branch (some n) deadline interval now (r1 :: r2 :: rest) =
      (PollOutcome.merged, [QueryKey.byBranch branch, QueryKey.byNumber n]) := by
  conv_lhs => rw [pollLoop.eq_def]
  simp [hnow, h1, hpat, hk]

theorem pollLoop_append_keepPolling (branch : String) (prNumber : Option Nat)
    (deadline interval : ℚ) (hInt : 0 ≤ interval) :
    ∀ (pre tail : List CommandOutcome) (now : ℚ),
      (∀ o ∈ pre, o.exitCode = 0 ∧ classify o = StepVerdict.keepPolling) →
      now + pre.length * interval < deadline →
      pollLoop branch prNumber deadline interval now (pre ++ tail) =
        ((pollLoop branch prNumber deadline interval (now + pre.length * interval) tail).1,
         List.replicate pre.length (QueryKey.byBranch branch) ++
           (pollLoop branch prNumber deadline interval (now + pre.length * interval) tail).2) := by
  intro pre
  induction pre with
  | nil =>
    intro tail now _ _
    simp
  | cons o pre ih =>
    intro tail now hall hdl
    have ho := hall o (List.mem_cons_self _ _)
    have hlen : (0:ℚ) ≤ ((o :: pre).length : ℚ) * interval :=
      mul_nonneg (by positivity) hInt
    have hnow : now < deadline := by linarith
    have harith : now + interval + (pre.length : ℚ) * interval
        = now + ((o :: pre).length : ℚ) * interval := by
      push_cast [List.length_cons]
      ring
    have hdl' : (now + interval) + (pre.length : ℚ) * interval < deadline := by
      rw [harith]; exact hdl
    rw [List.cons_append,
        pollLoop_step_keepPolling branch prNumber deadline interval now o (pre ++ tail)
          hnow (Or.inl ho.1) ho.2,
        ih tail (now + interval) (fun o' ho' => hall o' (List.mem_cons_of_mem _ ho')) hdl',
        harith]
    simp [List.replicate_succ]

/-- C1: in every polling session whose first branch-keyed query fails with
non-zero exit and stderr matching the `no pull requests found for branch
"<branch>"` pattern while a PR number was supplied, the second query is
keyed by that PR number, and if that second query returns state `MERGED`
the session returns successfully after exactly 2 queries. -/
theorem claim_C1_fallback_by_number_two_queries
    (branch : String) (n : Nat) (timeoutMinutes interval : ℚ)
    (r1 r2 : CommandOutcome) (rest : List CommandOutcome)
    (htm : 0 < timeoutMinutes)
    (h1 : r1.exitCode ≠ 0)
    (hpat : containsSub r1.stderr (branchDeletedPat branch) = true)
    (h2 : r2.exitCode = 0)
    (hst : parseStateField r2.stdout = some "MERGED") :
    poll_for_pr_merge branch timeoutMinutes interval (some n) (r1 :: r2 :: rest) =
      (PollOutcome.merged, [QueryKey.byBranch branch, QueryKey.byNumber n]) := by
  unfold poll_for_pr_merge
  exact pollLoop_fallback_merged branch n _ interval 0 r1 r2 rest
    (by nlinarith) h1 hpat (classify_merged_of_state h2 hst)

theorem claim_C1_witness :
    poll_for_pr_merge "releasing-1.0.0" 1 1 (some 123)
      [⟨1, "", "no pull requests found for branch \"releasing-1.0.0\""⟩,
       ⟨0, "\x7b\"state\": \"MERGED\"\x7d", ""⟩] =
      (PollOutcome.merged,
       [QueryKey.byBranch "releasing-1.0.0", QueryKey.byNumber 123]) :=
  claim_C1_fallback_by_number_two_queries "releasing-1.0.0" 123 1 1
    ⟨1, "", "no pull requests found for branch \"releasing-1.0.0\""⟩
    ⟨0, "\x7b\"state\": \"MERGED\"\x7d", ""⟩ []
    (by norm_num) (by decide) (by decide) rfl (by decide)

/-- C2: for every sequence of successful query results whose states end in
`MERGED` (all prior states non-terminal), polling returns without error
after observing `MERGED`, and the number of issued queries equals the
number of prior non-terminal states plus one. -/
theorem claim_C2_merged_after_nonterminal_states
    (branch : String) (prNumber : Option Nat) (timeoutMinutes interval : ℚ)
    (pre : List CommandOutcome) (lastq : CommandOutcome) (rest : List CommandOutcome)
    (hInt : 0 ≤ interval)
    (hdl : (pre.length : ℚ) * interval < timeoutMinutes * 60)
    (hall : ∀ o ∈ pre, o.exitCode = 0 ∧
      ∃ st, parseStateField o.stdout = some st ∧ st ≠ "MERGED" ∧ st ≠ "CLOSED")
    (hl0 : lastq.exitCode = 0)
    (hlp : parseStateField lastq.stdout = some "MERGED") :
    poll_for_pr_merge branch timeoutMinutes interval prNumber (pre ++ lastq :: rest) =
      (PollOutcome.merged,
       List.replicate (pre.length + 1) (QueryKey.byBranch branch)) := by
  have hall' : ∀ o ∈ pre, o.exitCode = 0 ∧ classify o = StepVerdict.keepPolling := by
    intro o ho
    obtain ⟨h0, st, hp, hm, hc⟩ := hall o ho
    exact ⟨h0, classify_keepPolling_of_state h0 hp hm hc⟩
  have hdl0 : (0:ℚ) + pre.length * interval < timeoutMinutes * 60 := by simpa using hdl
  unfold poll_for_pr_merge
  rw [pollLoop_append_keepPolling branch prNumber _ interval hInt pre (lastq :: rest) 0
        hall' hdl0,
      pollLoop_step_merged branch prNumber _ interval _ lastq rest hdl0 (Or.inl hl0)
        (classify_merged_of_state hl0 hlp)]
  simp [List.replicate_succ']

theorem claim_C2_witness :
    poll_for_pr_merge "releasing-1.0.0" 1 1 none
      [⟨0, "\x7b\"state\": \"OPEN\"\x7d", ""⟩, ⟨0, "\x7b\"state\": \"MERGED\"\x7d", ""⟩] =
      (PollOutcome.merged, List.replicate 2 (QueryKey.byBranch "releasing-1.0.0")) :=
  claim_C2_merged_after_nonterminal_states "releasing-1.0.0" none 1 1
    [⟨0, "\x7b\"state\": \"OPEN\"\x7d", ""⟩] ⟨0, "\x7b\"state\": \"MERGED\"\x7d", ""⟩ []
    (by norm_num) (by norm_num)
    (by
      intro o ho
      simp only [List.mem_singleton] at ho
      subst ho
      exact ⟨rfl, "OPEN", by decide, by decide, by decide⟩)
    rfl (by decide)

/-- C3: for every sequence of query results whose first terminal state is
`CLOSED`, polling fails with a `ReleaseError` whose message contains the
substring "closed" (case-insensitively) and issues no further queries
after observing `CLOSED`: exactly `pre.length + 1` queries are issued no
matter how many responses remain. -/
theorem claim_C3_closed_raises_and_stops
    (branch : String) (prNumber : Option Nat) (timeoutMinutes interval : ℚ)
    (pre : List CommandOutcome) (lastq : CommandOutcome) (rest : List CommandOutcome)
    (hInt : 0 ≤ interval)
    (hdl : (pre.length : ℚ) * interval < timeoutMinutes * 60)
    (hall : ∀ o ∈ pre, o.exitCode = 0 ∧
      ∃ st, parseStateField o.stdout = some st ∧ st ≠ "MERGED" ∧ st ≠ "CLOSED")
    (hl0 : lastq.exitCode = 0)
    (hlp : parseStateField lastq.stdout = some "CLOSED") :
    poll_for_pr_merge branch timeoutMinutes interval prNumber (pre ++ lastq :: rest) =
      (PollOutcome.releaseError closedMsg,
       List.replicate (pre.length + 1) (QueryKey.byBranch branch))
    ∧ containsSub (lowerStr closedMsg) "closed" = true := by
  refine ⟨?_, by decide⟩
  have hall' : ∀ o ∈ pre, o.exitCode = 0 ∧ classify o = StepVerdict.keepPolling := by
    intro o ho
    obtain ⟨h0, st, hp, hm, hc⟩ := hall o ho
    exact ⟨h0, classify_keepPolling_of_state h0 hp hm hc⟩
  have hdl0 : (0:ℚ) + pre.length * interval < timeoutMinutes * 60 := by simpa using hdl
  unfold poll_for_pr_merge
  rw [pollLoop_append_keepPolling branch prNumber _ interval hInt pre (lastq :: rest) 0
        hall' hdl0,
      pollLoop_step_closed branch prNumber _ interval _ lastq rest hdl0 (Or.inl hl0)
        (classify_closed_of_state hl0 hlp)]
  simp [List.replicate_succ']

theorem claim_C3_witness :
    poll_for_pr_merge "releasing-1.0.0" 1 1 none
      [⟨0, "\x7b\"state\": \"CLOSED\"\x7d", ""⟩, ⟨0, "\x7b\"state\": \"OPEN\"\x7d", ""⟩] =
      (PollOutcome.releaseError closedMsg,
       List.replicate 1 (QueryKey.byBranch "releasing-1.0.0"))
    ∧ containsSub (lowerStr closedMsg) "closed" = true :=
  claim_C3_closed_raises_and_stops "releasing-1.0.0" none 1 1
    [] ⟨0, "\x7b\"state\": \"CLOSED\"\x7d", ""⟩ [⟨0, "\x7b\"state\": \"OPEN\"\x7d", ""⟩]
    (by norm_num) (by norm_num)
    (by intro o ho; simp at ho)
    rfl (by decide)

theorem pollLoop_nil (branch : String) (prNumber : Option Nat)
    (deadline interval now : ℚ) :
    pollLoop branch prNumber deadline interval now [] =
      if now < deadline then (PollOutcome.exhausted, [])
      else (PollOutcome.releaseError timeoutMsg, []) := by
  conv_lhs => rw [pollLoop.eq_def]

theorem pollLoop_fallback_closed (branch : String) (n : Nat)
    (deadline interval now : ℚ) (r1 r2 : CommandOutcome) (rest : List CommandOutcome)
    (hnow : now < deadline) (h1 : r1.exitCode ≠ 0)
    (hpat : containsSub r1.stderr (branchDeletedPat branch) = true)
    (hk : classify r2 = StepVerdict.finishedClosed) :
    pollLoop branch (some n) deadline interval now (r1 :: r2 :: rest) =
      (PollOutcome.releaseError closedMsg,
       [QueryKey.byBranch branch, QueryKey.byNumber n]) := by
  conv_lhs => rw [pollLoop.eq_def]
  simp [hnow, h1, hpat, hk]

theorem pollLoop_fallback_keepPolling (branch : String) (n : Nat)
    (deadline interval now : ℚ) (r1 r2 : CommandOutcome) (rest2 : List CommandOutcome)
    (hnow : now < deadline) (h1 : r1.exitCode ≠ 0)
    (hpat : containsSub r1.stderr (branchDeletedPat branch) = true)
    (hk : classify r2 = StepVerdict.keepPolling) :
    pollLoop branch (some n) deadline interval now (r1 :: r2 :: rest2) =
      ((pollLoop branch (some n) deadline interval (now + interval) rest2).1,
       QueryKey.byBranch branch :: QueryKey.byNumber n ::
         (pollLoop branch (some n) deadline interval (now + interval) rest2).2) := by
  conv_lhs => rw [pollLoop.eq_def]
  simp [hnow, h1, hpat, hk]

theorem pollLoop_fallback_nil (branch : String) (n : Nat)
    (deadline interval now : ℚ) (r1 : CommandOutcome)
    (hnow : now < deadline) (h1 : r1.exitCode ≠ 0)
    (hpat : containsSub r1.stderr (branchDeletedPat branch) = true) :
    pollLoop branch (some n) deadline interval now [r1] =
      (PollOutcome.exhausted, [QueryKey.byBranch branch]) := by
  conv_lhs => rw [pollLoop.eq_def]
  simp [hnow, h1, hpat]

theorem pollLoop_timeout_of_keepPolling (branch : String) (prNumber : Option Nat)
    (deadline interval : ℚ) :
    ∀ (resp : List CommandOutcome) (now : ℚ),
      (∀ o ∈ resp, o.exitCode = 0 ∧ classify o = StepVerdict.keepPolling) →
      deadline ≤ now + resp.length * interval →
      (pollLoop branch prNumber deadline interval now resp).1 =
        PollOutcome.releaseError timeoutMsg := by
  intro resp
  induction resp with
  | nil =>
    intro now _ hdl
    rw [pollLoop_of_deadline_le _ _ _ _ _ _ (by simpa using hdl)]
  | cons o resp ih =>
    intro now hall hdl
    by_cases hnow : now < deadline
    · have ho := hall o (List.mem_cons_self _ _)
      rw [pollLoop_step_keepPolling _ _ _ _ _ _ _ hnow (Or.inl ho.1) ho.2]
      exact ih (now + interval)
        (fun o' ho' => hall o' (List.mem_cons_of_mem _ ho'))
        (by push_cast [List.length_cons] at hdl ⊢; linarith)
    · rw [pollLoop_of_deadline_le _ _ _ _ _ _ (not_lt.mp hnow)]

/-- C4: if every query up to the deadline returns state `OPEN` (no terminal
state is observed before the deadline), polling fails with a
`ReleaseError` whose message contains the substring "timeout"
(case-insensitively). -/
theorem claim_C4_timeout_when_always_open
    (branch : String) (prNumber : Option Nat) (timeoutMinutes interval : ℚ)
    (resp : List CommandOutcome)
    (hall : ∀ o ∈ resp, o.exitCode = 0 ∧ parseStateField o.stdout = some "OPEN")
    (hdl : timeoutMinutes * 60 ≤ resp.length * interval) :
    (poll_for_pr_merge branch timeoutMinutes interval prNumber resp).1 =
      PollOutcome.releaseError timeoutMsg
    ∧ containsSub (lowerStr timeoutMsg) "timeout" = true := by
  refine ⟨?_, by decide⟩
  unfold poll_for_pr_merge
  exact pollLoop_timeout_of_keepPolling branch prNumber _ interval resp 0
    (fun o ho => ⟨(hall o ho).1,
      classify_keepPolling_of_state (hall o ho).1 (hall o ho).2 (by decide) (by decide)⟩)
    (by simpa using hdl)

theorem claim_C4_witness :
    (poll_for_pr_merge "releasing-1.0.0" 1 60 none
        [⟨0, "\x7b\"state\": \"OPEN\"\x7d", ""⟩]).1 =
      PollOutcome.releaseError timeoutMsg
    ∧ containsSub (lowerStr timeoutMsg) "timeout" = true :=
  claim_C4_timeout_when_always_open "releasing-1.0.0" none 1 60
    [⟨0, "\x7b\"state\": \"OPEN\"\x7d", ""⟩]
    (by
      intro o ho
      simp only [List.mem_singleton] at ho
      subst ho
      exact ⟨rfl, by decide⟩)
    (by norm_num)

theorem pollLoop_step_none (branch : String) (deadline interval now : ℚ)
    (r1 : CommandOutcome) (rest : List CommandOutcome) (hnow : now < deadline) :
    pollLoop branch none deadline interval now (r1 :: rest) =
      match classify r1 with
      | StepVerdict.finishedMerged => (PollOutcome.merged, [QueryKey.byBranch branch])
      | StepVerdict.finishedClosed =>
          (PollOutcome.releaseError closedMsg, [QueryKey.byBranch branch])
      | StepVerdict.keepPolling =>
          ((pollLoop branch none deadline interval (now + interval) rest).1,
           QueryKey.byBranch branch ::
             (pollLoop branch none deadline interval (now + interval) rest).2) := by
  conv_lhs => rw [pollLoop.eq_def]
  simp [hnow]

theorem pollLoop_releaseError_classified (branch : String) (prNumber : Option Nat)
    (deadline interval : ℚ) :
    ∀ (k : Nat) (resp : List CommandOutcome), resp.length ≤ k →
      ∀ (now : ℚ) (msg : String),
        (pollLoop branch prNumber deadline interval now resp).1 =
          PollOutcome.releaseError msg →
        msg = closedMsg ∨ msg = timeoutMsg := by
  intro k
  induction k with
  | zero =>
    intro resp hlen now msg h
    obtain rfl := List.length_eq_zero.mp (Nat.le_zero.mp hlen)
    rw [pollLoop_nil] at h
    by_cases hnow : now < deadline
    · rw [if_pos hnow] at h
      simp at h
    · rw [if_neg hnow] at h
      simp at h
      exact Or.inr h.symm
  | succ k ih =>
    intro resp hlen now msg h
    rcases resp with _ | ⟨r1, rest⟩
    · rw [pollLoop_nil] at h
      by_cases hnow : now < deadline
      · rw [if_pos hnow] at h
        simp at h
      · rw [if_neg hnow] at h
        simp at h
        exact Or.inr h.symm
    · by_cases hnow : now < deadline
      · have hrest : rest.length ≤ k := by simp at hlen; omega
        cases prNumber with
        | none =>
          rw [pollLoop_step_none _ _ _ _ _ _ hnow] at h
          rcases hcl : classify r1 with _ | _ | _ <;> rw [hcl] at h
          · simp at h
          · simp at h
            exact Or.inl h.symm
          · exact ih rest hrest _ _ h
        | some n =>
          by_cases hfb : r1.exitCode ≠ 0 ∧
              containsSub r1.stderr (branchDeletedPat branch) = true
          · rcases rest with _ | ⟨r2, rest2⟩
            · rw [pollLoop_fallback_nil _ _ _ _ _ _ hnow hfb.1 hfb.2] at h
              simp at h
            · have hrest2 : rest2.length ≤ k := by simp at hrest; omega
              rcases hcl : classify r2 with _ | _ | _
              · rw [pollLoop_fallback_merged _ _ _ _ _ _ _ _ hnow hfb.1 hfb.2 hcl] at h
                simp at h
              · rw [pollLoop_fallback_closed _ _ _ _ _ _ _ _ hnow hfb.1 hfb.2 hcl] at h
                simp at h
                exact Or.inl h.symm
              · rw [pollLoop_fallback_keepPolling _ _ _ _ _ _ _ _
                      hnow hfb.1 hfb.2 hcl] at h
                exact ih rest2 hrest2 _ _ h
          · have hnf : r1.exitCode = 0 ∨
                containsSub r1.stderr (branchDeletedPat branch) = false := by
              rcases not_and_or.mp hfb with hx | hx
              · exact Or.inl (not_not.mp hx)
              · exact Or.inr (Bool.not_eq_true _ ▸ eq_false_of_ne_true hx)
            rcases hcl : classify r1 with _ | _ | _
            · rw [pollLoop_step_merged _ _ _ _ _ _ _ hnow hnf hcl] at h
              simp at h
            · rw [pollLoop_step_closed _ _ _ _ _ _ _ hnow hnf hcl] at h
              simp at h
              exact Or.inl h.symm
            · rw [pollLoop_step_keepPolling _ _ _ _ _ _ _ hnow hnf hcl] at h
              exact ih rest hrest _ _ h
      · rw [pollLoop_of_deadline_le _ _ _ _ _ _ (not_lt.mp hnow)] at h
        simp at h
        exact Or.inr h.symm

/-- C7: a query failure with no usable fallback (no PR number supplied, or
stderr not matching the branch-deletion pattern) is not terminal: the loop
sleeps for the poll interval and retries from the top when the deadline
has not passed; consequently the only `ReleaseError` messages a session
can surface are the closed message and the timeout message. -/
theorem claim_C7_transient_failures_absorbed
    (branch : String) (prNumber : Option Nat) (deadline interval now : ℚ)
    (r1 : CommandOutcome) (rest resp : List CommandOutcome)
    (timeoutMinutes interval2 : ℚ) (msg : String)
    (hnow : now < deadline) (h1 : r1.exitCode ≠ 0)
    (hnf : prNumber = none ∨ containsSub r1.stderr (branchDeletedPat branch) = false) :
    pollLoop branch prNumber deadline interval now (r1 :: rest) =
      ((pollLoop branch prNumber deadline interval (now + interval) rest).1,
       QueryKey.byBranch branch ::
         (pollLoop branch prNumber deadline interval (now + interval) rest).2)
    ∧ ((poll_for_pr_merge branch timeoutMinutes interval2 prNumber resp).1 =
          PollOutcome.releaseError msg →
        msg = closedMsg ∨ msg = timeoutMsg) := by
  constructor
  · rcases hnf with rfl | hc
    · rw [pollLoop_step_none _ _ _ _ _ _ hnow, classify_keepPolling_of_failure h1]
    · exact pollLoop_step_keepPolling _ _ _ _ _ _ _ hnow (Or.inr hc)
        (classify_keepPolling_of_failure h1)
  · intro h
    exact pollLoop_releaseError_classified branch prNumber _ interval2
      resp.length resp le_rfl 0 msg h

theorem claim_C7_witness :
    pollLoop "releasing-1.0.0" none 60 1 0 [⟨1, "", "connection reset"⟩] =
      ((pollLoop "releasing-1.0.0" none 60 1 (0 + 1) []).1,
       QueryKey.byBranch "releasing-1.0.0" ::
         (pollLoop "releasing-1.0.0" none 60 1 (0 + 1) []).2)
    ∧ (timeoutMsg = closedMsg ∨ timeoutMsg = timeoutMsg) :=
  ⟨(claim_C7_transient_failures_absorbed "releasing-1.0.0" none 60 1 0
      ⟨1, "", "connection reset"⟩ [] [] 0 1 timeoutMsg
      (by norm_num) (by decide) (Or.inl rfl)).1,
   (claim_C7_transient_failures_absorbed "releasing-1.0.0" none 60 1 0
      ⟨1, "", "connection reset"⟩ [] [] 0 1 timeoutMsg
      (by norm_num) (by decide) (Or.inl rfl)).2
     (by
       unfold poll_for_pr_merge
       rw [pollLoop_of_deadline_le _ _ _ _ _ _ (by norm_num)])⟩

/-- C9: a successful query whose parsed state is neither `MERGED` nor
`CLOSED` (including values outside the expected enumeration) is treated
exactly as `OPEN`: the session behaves identically to one that observed
`OPEN`, sleeping for the poll interval and continuing when the deadline
has not passed. -/
theorem claim_C9_unrecognized_state_like_open
    (branch : String) (prNumber : Option Nat) (deadline interval now : ℚ)
    (r r' : CommandOutcome) (rest : List CommandOutcome) (st : String)
    (h0 : r.exitCode = 0) (hp : parseStateField r.stdout = some st)
    (hm : st ≠ "MERGED") (hc : st ≠ "CLOSED")
    (h0' : r'.exitCode = 0) (hp' : parseStateField r'.stdout = some "OPEN") :
    pollLoop branch prNumber deadline interval now (r :: rest) =
      pollLoop branch prNumber deadline interval now (r' :: rest)
    ∧ (now < deadline →
        pollLoop branch prNumber deadline interval now (r :: rest) =
          ((pollLoop branch prNumber deadline interval (now + interval) rest).1,
           QueryKey.byBranch branch ::
             (pollLoop branch prNumber deadline interval (now + interval) rest).2)) := by
  have hkr : classify r = StepVerdict.keepPolling :=
    classify_keepPolling_of_state h0 hp hm hc
  have hkr' : classify r' = StepVerdict.keepPolling :=
    classify_keepPolling_of_state h0' hp' (by decide) (by decide)
  constructor
  · by_cases hnow : now < deadline
    · rw [pollLoop_step_keepPolling _ _ _ _ _ _ _ hnow (Or.inl h0) hkr,
          pollLoop_step_keepPolling _ _ _ _ _ _ _ hnow (Or.inl h0') hkr']
    · rw [pollLoop_of_deadline_le _ _ _ _ _ _ (not_lt.mp hnow),
          pollLoop_of_deadline_le _ _ _ _ _ _ (not_lt.mp hnow)]
  · intro hnow
    exact pollLoop_step_keepPolling _ _ _ _ _ _ _ hnow (Or.inl h0) hkr

theorem claim_C9_witness :
    pollLoop "releasing-1.0.0" none 60 1 0
        [⟨0, "\x7b\"state\": \"UNKNOWN\"\x7d", ""⟩] =
      pollLoop "releasing-1.0.0" none 60 1 0 [⟨0, "\x7b\"state\": \"OPEN\"\x7d", ""⟩]
    ∧ pollLoop "releasing-1.0.0" none 60 1 0
          [⟨0, "\x7b\"state\": \"UNKNOWN\"\x7d", ""⟩] =
        ((pollLoop "releasing-1.0.0" none 60 1 (0 + 1) []).1,
         QueryKey.byBranch "releasing-1.0.0" ::
           (pollLoop "releasing-1.0.0" none 60 1 (0 + 1) []).2) :=
  ⟨(claim_C9_unrecognized_state_like_open "releasing-1.0.0" none 60 1 0
      ⟨0, "\x7b\"state\": \"UNKNOWN\"\x7d", ""⟩ ⟨0, "\x7b\"state\": \"OPEN\"\x7d", ""⟩ []
      "UNKNOWN" rfl (by decide) (by decide) (by decide) rfl (by decide)).1,
   (claim_C9_unrecognized_state_like_open "releasing-1.0.0" none 60 1 0
      ⟨0, "\x7b\"state\": \"UNKNOWN\"\x7d", ""⟩ ⟨0, "\x7b\"state\": \"OPEN\"\x7d", ""⟩ []
      "UNKNOWN" rfl (by decide) (by decide) (by decide) rfl (by decide)).2
     (by norm_num)⟩

theorem numberAfterBranchOnly_cons_branch (branch : String) (l : List QueryKey)
    (h : numberAfterBranchOnly branch l = true) :
    numberAfterBranchOnly branch (QueryKey.byBranch branch :: l) = true := by
  cases l with
  | nil => simp [numberAfterBranchOnly]
  | cons k rest =>
    cases k with
    | byBranch b =>
      simp only [numberAfterBranchOnly, Bool.and_eq_true, beq_self_eq_true, true_and]
      exact h
    | byNumber m => simp [numberAfterBranchOnly] at h

theorem pollLoop_trace_shape (branch : String) (prNumber : Option Nat)
    (deadline interval : ℚ) :
    ∀ (k : Nat) (resp : List CommandOutcome), resp.length ≤ k → ∀ (now : ℚ),
      numberAfterBranchOnly branch
          (pollLoop branch prNumber deadline interval now resp).2 = true
      ∧ (noDeletionFailure branch resp = true →
          allBranchKeyed branch
            (pollLoop branch prNumber deadline interval now resp).2 = true) := by
  intro k
  induction k with
  | zero =>
    intro resp hlen now
    obtain rfl := List.length_eq_zero.mp (Nat.le_zero.mp hlen)
    by_cases hnow : now < deadline <;>
      simp [pollLoop_nil, hnow, numberAfterBranchOnly, allBranchKeyed]
  | succ k ih =>
    intro resp hlen now
    rcases resp with _ | ⟨r1, rest⟩
    · by_cases hnow : now < deadline <;>
        simp [pollLoop_nil, hnow, numberAfterBranchOnly, allBranchKeyed]
    · by_cases hnow : now < deadline
      · have hrest : rest.length ≤ k := by simp at hlen; omega
        cases prNumber with
        | none =>
          rw [pollLoop_step_none _ _ _ _ _ _ hnow]
          rcases hcl : classify r1 with _ | _ | _
          · simp [numberAfterBranchOnly, allBranchKeyed]
          · simp [numberAfterBranchOnly, allBranchKeyed]
          · constructor
            · exact numberAfterBranchOnly_cons_branch _ _ (ih rest hrest _).1
            · intro hnd
              rw [noDeletionFailure, Bool.and_eq_true] at hnd
              simp only [allBranchKeyed, Bool.and_eq_true, beq_self_eq_true, true_and]
              exact (ih rest hrest _).2 hnd.2
        | some n =>
          by_cases hfb : r1.exitCode ≠ 0 ∧
              containsSub r1.stderr (branchDeletedPat branch) = true
          · have hndF : noDeletionFailure branch (r1 :: rest) = false := by
              rw [noDeletionFailure]
              simp [hfb.1, hfb.2]
            rcases rest with _ | ⟨r2, rest2⟩
            · rw [pollLoop_fallback_nil _ _ _ _ _ _ hnow hfb.1 hfb.2]
              refine ⟨by simp [numberAfterBranchOnly], fun hnd => ?_⟩
              rw [hndF] at hnd
              cases hnd
            · have hrest2 : rest2.length ≤ k := by simp at hrest; omega
              rcases hcl : classify r2 with _ | _ | _
              · rw [pollLoop_fallback_merged _ _ _ _ _ _ _ _ hnow hfb.1 hfb.2 hcl]
                refine ⟨by simp [numberAfterBranchOnly], fun hnd => ?_⟩
                rw [hndF] at hnd
                cases hnd
              · rw [pollLoop_fallback_closed _ _ _ _ _ _ _ _ hnow hfb.1 hfb.2 hcl]
                refine ⟨by simp [numberAfterBranchOnly], fun hnd => ?_⟩
                rw [hndF] at hnd
                cases hnd
              · rw [pollLoop_fallback_keepPolling _ _ _ _ _ _ _ _ hnow hfb.1 hfb.2 hcl]
                refine ⟨?_, fun hnd => ?_⟩
                · simp only [numberAfterBranchOnly, Bool.and_eq_true,
                    beq_self_eq_true, true_and]
                  exact (ih rest2 hrest2 _).1
                · rw [hndF] at hnd
                  cases hnd
          · have hnf : r1.exitCode = 0 ∨
                containsSub r1.stderr (branchDeletedPat branch) = false := by
              rcases not_and_or.mp hfb with hx | hx
              · exact Or.inl (not_not.mp hx)
              · exact Or.inr (Bool.not_eq_true _ ▸ eq_false_of_ne_true hx)
            rcases hcl : classify r1 with _ | _ | _
            · rw [pollLoop_step_merged _ _ _ _ _ _ _ hnow hnf hcl]
              simp [numberAfterBranchOnly, allBranchKeyed]
            · rw [pollLoop_step_closed _ _ _ _ _ _ _ hnow hnf hcl]
              simp [numberAfterBranchOnly, allBranchKeyed]
            · rw [pollLoop_step_keepPolling _ _ _ _ _ _ _ hnow hnf hcl]
              refine ⟨?_, fun hnd => ?_⟩
              · exact numberAfterBranchOnly_cons_branch _ _ (ih rest hrest _).1
              · rw [noDeletionFailure, Bool.and_eq_true] at hnd
                simp only [allBranchKeyed, Bool.and_eq_true, beq_self_eq_true, true_and]
                exact (ih rest hrest _).2 hnd.2
      · rw [pollLoop_of_deadline_le _ _ _ _ _ _ (not_lt.mp hnow)]
        simp [numberAfterBranchOnly, allBranchKeyed]

/-- C8: in every polling session each iteration issues the branch-keyed
query first (a number-keyed query is only ever issued immediately after a
branch-keyed query in the same iteration), and when no branch-keyed query
fails with the branch-deletion pattern, no number-keyed query is ever
issued. -/
theorem claim_C8_branch_query_first
    (branch : String) (prNumber : Option Nat) (timeoutMinutes interval : ℚ)
    (resp : List CommandOutcome) :
    numberAfterBranchOnly branch
        (poll_for_pr_merge branch timeoutMinutes interval prNumber resp).2 = true
    ∧ (noDeletionFailure branch resp = true →
        allBranchKeyed branch
          (poll_for_pr_merge branch timeoutMinutes interval prNumber resp).2 = true) := by
  unfold poll_for_pr_merge
  exact pollLoop_trace_shape branch prNumber _ interval resp.length resp le_rfl 0

theorem claim_C8_witness :
    numberAfterBranchOnly "releasing-1.0.0"
        (poll_for_pr_merge "releasing-1.0.0" 1 1 (some 123)
          [⟨0, "\x7b\"state\": \"MERGED\"\x7d", ""⟩]).2 = true
    ∧ allBranchKeyed "releasing-1.0.0"
        (poll_for_pr_merge "releasing-1.0.0" 1 1 (some 123)
          [⟨0, "\x7b\"state\": \"MERGED\"\x7d", ""⟩]).2 = true :=
  ⟨(claim_C8_branch_query_first "releasing-1.0.0" (some 123) 1 1
      [⟨0, "\x7b\"state\": \"MERGED\"\x7d", ""⟩]).1,
   (claim_C8_branch_query_first "releasing-1.0.0" (some 123) 1 1
      [⟨0, "\x7b\"state\": \"MERGED\"\x7d", ""⟩]).2 (by decide)⟩

theorem lastSegAux_no_slash (l : List Char) :
    ∀ (acc : List Char), ('/' ∉ l) → lastSegAux acc l = acc ++ l := by
  induction l with
  | nil => intro acc _; simp [lastSegAux]
  | cons c rest ih =>
    intro acc h
    have hc : ¬(c = '/') := fun hc => h (by simp [hc])
    rw [lastSegAux, if_neg hc, ih (acc ++ [c]) (fun hm => h (List.mem_cons_of_mem _ hm))]
    simp

theorem lastSegAux_after_slash (ys : List Char) :
    ∀ (xs acc : List Char), lastSegAux acc (xs ++ '/' :: ys) = lastSegAux [] ys := by
  intro xs
  induction xs with
  | nil => intro acc; rw [List.nil_append, lastSegAux, if_pos rfl]
  | cons c xs ih =>
    intro acc
    rw [List.cons_append, lastSegAux]
    by_cases hc : c = '/'
    · rw [if_pos hc]; exact ih []
    · rw [if_neg hc]; exact ih (acc ++ [c])

theorem parsePrNumber_of_url (preCs ds : List Char) (n : Nat) (url : String)
    (hurl : url.toList = preCs ++ ('/' :: ds))
    (hslash : '/' ∉ ds) (hds : parseDec ds = some n) :
    parsePrNumber url = some n := by
  unfold parsePrNumber
  rw [hurl, lastSegAux_after_slash, lastSegAux_no_slash ds [] hslash,
      List.nil_append, hds]

/-- C5: when the availability probe, the branch push and the PR-creation
command all succeed and the creation stdout is a URL whose final path
segment after the last `/` is a decimal number, `push_and_create_pr`
returns that number; when the trailing segment is not a decimal number it
returns the absent "no PR number" result instead of failing. -/
theorem claim_C5_pr_number_from_url
    (probeRes pushRes createRes : CommandOutcome)
    (hprobe : probeRes.exitCode = 0) (hpush : pushRes.exitCode = 0)
    (hcreate : createRes.exitCode = 0) :
    (∀ (preCs ds : List Char) (n : Nat),
        createRes.stdout.toList = preCs ++ ('/' :: ds) → '/' ∉ ds →
        parseDec ds = some n →
        (push_and_create_pr probeRes pushRes createRes).1 = Except.ok (some n))
    ∧ (parsePrNumber createRes.stdout = none →
        (push_and_create_pr probeRes pushRes createRes).1 = Except.ok none) := by
  have hres : (push_and_create_pr probeRes pushRes createRes).1 =
      Except.ok (parsePrNumber createRes.stdout) := by
    unfold push_and_create_pr
    simp [hprobe, hpush, hcreate]
  constructor
  · intro preCs ds n hurl hslash hds
    rw [hres, parsePrNumber_of_url preCs ds n _ hurl hslash hds]
  · intro hnone
    rw [hres, hnone]

theorem claim_C5_witness :
    (push_and_create_pr ⟨0, "", ""⟩ ⟨0, "", ""⟩
        ⟨0, "https://github.com/softagram/sgraph/pull/456", ""⟩).1 =
      Except.ok (some 456) :=
  (claim_C5_pr_number_from_url ⟨0, "", ""⟩ ⟨0, "", ""⟩
      ⟨0, "https://github.com/softagram/sgraph/pull/456", ""⟩ rfl rfl rfl).1
    "https://github.com/softagram/sgraph/pull".toList "456".toList 456
    (by decide) (by decide) (by decide)

/-- C6: when the hosted-service CLI availability probe exits non-zero,
`push_and_create_pr` returns the absent "no PR" result without invoking
the branch push or the PR-creation command, and without raising any
error. -/
theorem claim_C6_probe_unavailable_soft_skip
    (probeRes pushRes createRes : CommandOutcome)
    (hprobe : probeRes.exitCode ≠ 0) :
    push_and_create_pr probeRes pushRes createRes =
      (Except.ok none, [CmdKind.ghProbe]) := by
  unfold push_and_create_pr
  rw [if_pos hprobe]

theorem claim_C6_witness :
    push_and_create_pr ⟨1, "", ""⟩ ⟨0, "", ""⟩ ⟨0, "", ""⟩ =
      (Except.ok none, [CmdKind.ghProbe]) :=
  claim_C6_probe_unavailable_soft_skip ⟨1, "", ""⟩ ⟨0, "", ""⟩ ⟨0, "", ""⟩ (by decide)

/-- C10: the converter script reads `sys.argv[1]` unconditionally before
any other work, so with fewer than two argv entries (no command-line
argument beyond the script name) it fails with an index-out-of-range
error before reading or parsing any input; an output path is taken from
`sys.argv[2]` exactly when more than two argv entries exist (with the
node-count print performed only when that path is nonempty, by Python
truthiness), otherwise `to_deps` receives `none` and the model goes to
stdout. -/
theorem claim_C10_xml_to_deps_argv
    (a0 a1 a2 : String) (rest : List String) :
    xml_to_deps_run [] = ([], some indexErrorMsg)
    ∧ xml_to_deps_run [a0] = ([], some indexErrorMsg)
    ∧ xml_to_deps_run [a0, a1] =
        ([ScriptStep.parseInput a1, ScriptStep.toDeps none], none)
    ∧ (a2 ≠ "" →
        xml_to_deps_run (a0 :: a1 :: a2 :: rest) =
          ([ScriptStep.parseInput a1, ScriptStep.printNodeCount,
            ScriptStep.toDeps (some a2)], none))
    ∧ xml_to_deps_run (a0 :: a1 :: "" :: rest) =
        ([ScriptStep.parseInput a1, ScriptStep.toDeps (some "")], none) := by
  have hlt : 2 < (a0 :: a1 :: a2 :: rest).length := by simp
  have hlt' : 2 < (a0 :: a1 :: "" :: rest).length := by simp
  refine ⟨rfl, rfl, rfl, ?_, ?_⟩
  · intro h
    simp [xml_to_deps_run, hlt, h]
  · simp [xml_to_deps_run, hlt']

theorem claim_C10_witness :
    xml_to_deps_run ["xml_to_deps.py", "in.xml", "out.deps"] =
      ([ScriptStep.parseInput "in.xml", ScriptStep.printNodeCount,
        ScriptStep.toDeps (some "out.deps")], none) :=
  (claim_C10_xml_to_deps_argv "xml_to_deps.py" "in.xml" "out.deps" []).2.2.2.1
    (by decide)

end SgraphSpec
